import Mathlib

/-!
Verification of the `periph/home` native API server (package `node`).

This file shallowly embeds the Go source of the repository:

* the varint and frame codec (`readVarUint`, `writeMsg`, `readMsg` in
  `node/api.go`),
* entity identity derivation (`componentBase.init`),
* the Node entity registry (`Node.addEntity`, `Node.Close`),
* the per-connection dispatcher (`conn.handleRPC`, `conn.handleConnection`)
  and its message handlers,
* the subscription fan-out (`componentBase.register` / `onNewState` /
  `unregister`).

Byte streams are `List Nat` with each element `< 256`; Go's `uint64` and
`uint32` arithmetic is `Nat` arithmetic with explicit `% 2 ^ 64` / `% 2 ^ 32`
at the points where Go wraps.
-/

namespace PeriphHome

/-! ## Varint codec (`node/api.go`, `readVarUint` and `binary.PutUvarint`) -/

/-- `binary.PutUvarint`: LEB128 encoding of a `uint64` value, 7-bit groups,
continuation bit `0x80` on every byte but the last. -/
def putUvarint (x : Nat) : List Nat :=
  if h : x < 0x80 then [x]
  else (x % 0x80 + 0x80) :: putUvarint (x / 0x80)
decreasing_by
  exact Nat.div_lt_self (by omega) (by omega)

/-- `readVarUint` from `node/api.go`: reads one byte at a time, accumulating
7-bit groups; a terminator at index `i ≥ 10`, or at index `9` with value
`> 1`, is an overflow error.  `none` models both the overflow error and a
read error (end of stream).  Accumulation wraps at `2 ^ 64` exactly as Go's
`uint64` shift/or does. -/
def readVarUintAux : List Nat → Nat → Nat → Nat → Option (Nat × List Nat)
  | [], _, _, _ => none
  | b :: rest, i, x, s =>
    if b < 0x80 then
      if 10 ≤ i ∨ (i = 9 ∧ 1 < b) then none
      else some (x ||| (b <<< s) % 2 ^ 64, rest)
    else readVarUintAux rest (i + 1) (x ||| (b % 0x80) <<< s % 2 ^ 64) (s + 7)

/-- Entry point of `readVarUint`: index, accumulator and shift start at 0. -/
def readVarUint (l : List Nat) : Option (Nat × List Nat) :=
  readVarUintAux l 0 0 0

/-- Bitwise-or of a value below `2 ^ s` with a value shifted left by `s` is
plain addition: the two operands occupy disjoint bit ranges. -/
lemma lor_mul_two_pow_eq_add {x v s : Nat} (h : x < 2 ^ s) :
    x ||| v * 2 ^ s = x + v * 2 ^ s := by
  apply Nat.eq_of_testBit_eq
  intro j
  have hx : x + v * 2 ^ s = 2 ^ s * v + x := by ring
  rw [hx, Nat.testBit_lor, ← Nat.shiftLeft_eq, Nat.testBit_shiftLeft,
    Nat.testBit_mul_pow_two_add v h j]
  by_cases hj : j < s
  · simp [hj, Nat.not_le.mpr hj]
  · have hxf : x.testBit j = false :=
      Nat.testBit_eq_false_of_lt
        (lt_of_lt_of_le h (Nat.pow_le_pow_right (by omega) (by omega)))
    simp [hj, Nat.le_of_not_lt hj, hxf]

/-- `putUvarint` emits at most `n + 1` bytes for values below `2 ^ (7n + 7)`. -/
lemma putUvarint_length : ∀ (n v : Nat), v < 2 ^ (7 * n + 7) →
    (putUvarint v).length ≤ n + 1 := by
  intro n
  induction n with
  | zero =>
    intro v hv
    have hv' : v < 0x80 := by
      have h2 : (2 : Nat) ^ (7 * 0 + 7) = 128 := by norm_num
      omega
    rw [putUvarint, dif_pos hv']
    simp
  | succ n ih =>
    intro v hv
    rw [putUvarint]
    by_cases h : v < 0x80
    · rw [dif_pos h]; simp
    · rw [dif_neg h]
      have hd : v / 0x80 < 2 ^ (7 * n + 7) := by
        rw [Nat.div_lt_iff_lt_mul (by norm_num)]
        calc v < 2 ^ (7 * (n + 1) + 7) := hv
        _ = 2 ^ (7 * n + 7) * 0x80 := by
            rw [show 7 * (n + 1) + 7 = 7 * n + 7 + 7 by ring, pow_add]
            norm_num
      simpa using Nat.succ_le_succ (ih _ hd)

/-- A canonical varint encoding appended to any suffix decodes to its value:
generalised over the running index, accumulator and shift of the read loop. -/
lemma readVarUintAux_putUvarint (v : Nat) :
    ∀ i x s rest, s = 7 * i → x < 2 ^ s → v < 2 ^ (64 - 7 * i) → i ≤ 9 →
    readVarUintAux (putUvarint v ++ rest) i x s = some (x + v * 2 ^ s, rest) := by
  induction v using Nat.strong_induction_on with
  | _ v ih =>
    intro i x s rest hs hx hv hi
    rw [putUvarint]
    by_cases h : v < 0x80
    · rw [dif_pos h]
      show readVarUintAux (v :: rest) i x s = _
      rw [readVarUintAux, if_pos h, if_neg]
      · have hvs : v * 2 ^ s < 2 ^ 64 := by
          calc v * 2 ^ s < 2 ^ (64 - 7 * i) * 2 ^ (7 * i) :=
                Nat.mul_lt_mul_of_lt_of_le hv (by rw [hs]) (Nat.two_pow_pos _)
          _ = 2 ^ 64 := by rw [← pow_add]; congr 1; omega
        rw [Nat.shiftLeft_eq, Nat.mod_eq_of_lt hvs, lor_mul_two_pow_eq_add hx]
      · rintro (h10 | ⟨h9, hb⟩)
        · omega
        · subst h9; have : v < 2 := by simpa using hv
          omega
    · rw [dif_neg h]
      show readVarUintAux ((v % 0x80 + 0x80) :: (putUvarint (v / 0x80) ++ rest))
        i x s = _
      rw [readVarUintAux, if_neg (by omega)]
      have hi8 : i ≤ 8 := by
        by_contra hgt
        have : i = 9 := by omega
        subst this
        have : v < 2 := by simpa using hv
        omega
      have hb : (v % 0x80 + 0x80) % 0x80 = v % 0x80 := by omega
      have hsh : (v % 0x80) <<< s % 2 ^ 64 = (v % 0x80) * 2 ^ s := by
        rw [Nat.shiftLeft_eq]
        apply Nat.mod_eq_of_lt
        calc (v % 0x80) * 2 ^ s < 0x80 * 2 ^ s :=
              Nat.mul_lt_mul_of_lt_of_le (Nat.mod_lt _ (by norm_num)) le_rfl
                (Nat.two_pow_pos _)
        _ = 2 ^ (s + 7) := by rw [pow_add]; ring
        _ ≤ 2 ^ 64 := Nat.pow_le_pow_right (by norm_num) (by omega)
      rw [hb, hsh, lor_mul_two_pow_eq_add hx]
      have hx' : x + (v % 0x80) * 2 ^ s < 2 ^ (s + 7) := by
        have h1 : (v % 0x80) * 2 ^ s ≤ 127 * 2 ^ s :=
          Nat.mul_le_mul_right _ (by omega)
        have h2 : (2 : Nat) ^ (s + 7) = 128 * 2 ^ s := by rw [pow_add]; ring
        omega
      have hdv : v / 0x80 < 2 ^ (64 - 7 * (i + 1)) := by
        rw [Nat.div_lt_iff_lt_mul (by norm_num)]
        calc v < 2 ^ (64 - 7 * i) := hv
        _ = 2 ^ (64 - 7 * (i + 1)) * 0x80 := by
            rw [show (0x80 : Nat) = 2 ^ 7 by norm_num, ← pow_add]
            congr 1; omega
      have := ih (v / 0x80) (Nat.div_lt_self (by omega) (by norm_num))
        (i + 1) (x + (v % 0x80) * 2 ^ s) (s + 7) rest (by omega) hx' hdv
        (by omega)
      rw [this]
      congr 2
      have h2 : (2 : Nat) ^ (s + 7) = 2 ^ s * 128 := by rw [pow_add]; ring
      rw [h2]
      have hvd : 128 * (v / 128) + v % 128 = v := Nat.div_add_mod v 128
      calc x + v % 0x80 * 2 ^ s + v / 0x80 * (2 ^ s * 128)
          = x + (128 * (v / 128) + v % 128) * 2 ^ s := by ring_nf
      _ = x + v * 2 ^ s := by rw [hvd]

/-- Decoding the canonical varint encoding of any `uint64` value, followed by
any suffix, returns the value and the suffix. -/
lemma readVarUint_putUvarint {v : Nat} (hv : v < 2 ^ 64) (rest : List Nat) :
    readVarUint (putUvarint v ++ rest) = some (v, rest) := by
  have := readVarUintAux_putUvarint v 0 0 0 rest rfl (by norm_num)
    (by simpa using hv) (by norm_num)
  simpa using this

/-- `uint64` values encode to at most 10 bytes. -/
lemma putUvarint_length_le {v : Nat} (hv : v < 2 ^ 64) :
    (putUvarint v).length ≤ 10 := by
  have := putUvarint_length 9 v (lt_of_lt_of_le hv (by norm_num))
  omega

/-- Once the read loop's index reaches 10, no terminator is ever accepted:
the loop can only fail. -/
lemma readVarUintAux_none_of_ten_le :
    ∀ (l : List Nat) i x s, 10 ≤ i → readVarUintAux l i x s = none := by
  intro l
  induction l with
  | nil => intro i x s _; rfl
  | cons b rest ih =>
    intro i x s hi
    rw [readVarUintAux]
    by_cases hb : b < 0x80
    · rw [if_pos hb, if_pos (Or.inl hi)]
    · rw [if_neg hb]
      exact ih _ _ _ (by omega)

/-- If the first ten bytes of the input all carry the continuation bit, the
varint read fails, whatever follows. -/
lemma readVarUintAux_none_of_cont (pre : List Nat) :
    ∀ (l : List Nat) i x s, (∀ b ∈ pre, 0x80 ≤ b) → 10 ≤ i + pre.length →
    readVarUintAux (pre ++ l) i x s = none := by
  induction pre with
  | nil =>
    intro l i x s _ hi
    exact readVarUintAux_none_of_ten_le l i x s (by simpa using hi)
  | cons b pre ih =>
    intro l i x s hall hi
    rw [List.cons_append, readVarUintAux,
      if_neg (by have := hall b (by simp); omega)]
    exact ih l (i + 1) _ _ (fun b hb => hall b (by simp [hb]))
      (by simp at hi ⊢; omega)

/-! ## Frame codec (`node/api.go`, `writeMsg` and `readMsg`) -/

/-- `writeMsg`: a single buffer holding the zero byte, the varuint payload
length, the varuint message id, then the payload, written in one call. -/
def writeMsg (id : Nat) (msg : List Nat) : List Nat :=
  0 :: (putUvarint msg.length ++ putUvarint id ++ msg)

/-- `readMsg`: reads the zero byte (any other first byte is a protocol
violation), the varuint payload size (rejected above 1 MiB), the varuint id,
then the payload.  The Go code issues a single `r.Read(msg)` into a
zero-filled buffer of `msgsize` bytes and ignores the returned count, so a
stream that ends early yields a zero-padded payload; an empty stream yields a
read error.  Returns `(id, payload, rest of stream)`. -/
def readMsg : List Nat → Option (Nat × List Nat × List Nat)
  | [] => none
  | b :: rest =>
    if b ≠ 0 then none
    else match readVarUint rest with
      | none => none
      | some (msgsize, rest2) =>
        if 1024 * 1024 < msgsize then none
        else match readVarUint rest2 with
          | none => none
          | some (id, rest3) =>
            if msgsize = 0 then some (id, [], rest3)
            else if rest3.length = 0 then none
            else some (id, rest3.take msgsize ++
                List.replicate (msgsize - rest3.length) 0,
              rest3.drop msgsize)

/-- The `requests` table of `node/api.go`: ids of client-to-server messages
(SOURCE_CLIENT or SOURCE_BOTH) mapped to their protobuf type. -/
def requestIds : List Nat :=
  [1, 3, 5, 6, 7, 8, 9, 11, 20, 28, 30, 31, 32, 33, 34, 36, 37, 38, 40, 42,
    45, 48]

/-- Ids assigned by `getID` in `node/api.go`: server-to-client messages
(SOURCE_SERVER or SOURCE_BOTH). -/
def responseIds : List Nat :=
  [2, 4, 5, 6, 7, 8, 10, 12, 13, 14, 15, 16, 17, 18, 19, 21, 22, 23, 24, 25,
    26, 27, 29, 35, 36, 37, 39, 41, 43, 44, 46, 47]

/-- Every id known to the registry, in either direction. -/
def knownIds : List Nat := requestIds ++ responseIds

lemma knownIds_lt {id : Nat} (h : id ∈ knownIds) : id < 2 ^ 64 := by
  have hall : ∀ i ∈ knownIds, i < 2 ^ 64 := by decide
  exact hall id h

/-- Encode-then-decode over a byte stream: the frame written by `writeMsg`
decodes to the same id and payload, leaving the rest of the stream. -/
lemma readMsg_writeMsg {id : Nat} {payload : List Nat} (rest : List Nat)
    (hid : id < 2 ^ 64) (hlen : payload.length ≤ 1024 * 1024) :
    readMsg (writeMsg id payload ++ rest) = some (id, payload, rest) := by
  have hlen64 : payload.length < 2 ^ 64 := by
    have h20 : (1024 * 1024 : Nat) < 2 ^ 64 := by norm_num
    omega
  have e1 : writeMsg id payload ++ rest
      = 0 :: (putUvarint payload.length ++ (putUvarint id ++ (payload ++ rest))) := by
    simp [writeMsg, List.append_assoc]
  rw [e1, readMsg, if_neg (by simp)]
  simp only [readVarUint_putUvarint hlen64, readVarUint_putUvarint hid]
  rw [if_neg (by omega)]
  by_cases hp : payload.length = 0
  · rw [if_pos hp]
    have hpe : payload = [] := List.length_eq_zero.mp hp
    subst hpe
    simp
  · rw [if_neg hp, if_neg (by simp only [List.length_append]; omega)]
    rw [List.take_left, List.drop_left]
    have hz : payload.length - (payload ++ rest).length = 0 := by
      simp [List.length_append]
    rw [hz]
    simp

/-! ## Entity identity (`componentBase.init` in the node package) -/

/-- The rune filter inside `componentBase.init`: keep `[a-z0-9_-]`, lowercase
`A-Z` (ASCII lowercase is code point + 32, what `unicode.ToLower` does on
this range), drop everything else. -/
def mapRune (r : Char) : Option Char :=
  if ('a' ≤ r ∧ r ≤ 'z') ∨ ('0' ≤ r ∧ r ≤ '9') ∨ r = '-' ∨ r = '_' then some r
  else if 'A' ≤ r ∧ r ≤ 'Z' then some (Char.ofNat (r.toNat + 32))
  else none

/-- `strings.Map(filter, name)`: the derived object id. -/
def objectID (name : String) : String :=
  String.mk (name.data.filterMap mapRune)

/-- The byte sequence hashed by `init`.  The filter only emits ASCII
characters, for which the UTF-8 bytes are the code points. -/
def strBytes (s : String) : List Nat :=
  s.data.map Char.toNat

/-- `hash/fnv.New32` as used by `componentBase.init`: 32-bit FNV-1
(multiply by the prime, then xor the byte). -/
def fnv32 (bs : List Nat) : Nat :=
  bs.foldl (fun h b => ((h * 16777619) % 2 ^ 32) ^^^ b) 2166136261

/-- Modelled from the spec: 32-bit FNV-1a (xor the byte, then multiply by
the prime), the algorithm the spec names for `key`.  Stated only to compare
with `fnv32`, the hash the source actually computes. -/
def fnv1a32 (bs : List Nat) : Nat :=
  bs.foldl (fun h b => ((h ^^^ b) * 16777619) % 2 ^ 32) 2166136261

/-- The identity fields computed by `componentBase.init`. -/
structure Identity where
  objectID : String
  uniqueID : String
  key : Nat
  deriving Repr, DecidableEq

/-- `componentBase.init`: validates the name and component type, derives the
object id, unique id and key.  The Go `0 → 1` substitution on the hash is
applied to the key. -/
def componentInit (nodeName name ctype : String) : Except String Identity :=
  if name = "" then .error "internal error: name not set"
  else if ctype = "" then .error "internal error: componentType not set"
  else if objectID name = "" then .error "internal error: objectID is empty"
  else
    .ok { objectID := objectID name
          uniqueID := nodeName ++ ctype ++ objectID name
          key := if fnv32 (strBytes (objectID name)) = 0 then 1
                 else fnv32 (strBytes (objectID name)) }

/-! ## Node entity registry (`Node.addEntity`, `New` in the node package) -/

/-- The Node fields touched by `addEntity`: the ordered entity list and the
`key → entity` lookup map.  The map is an association list with the newest
binding first; inserting a key drops any older binding, which is Go map
assignment. -/
structure NodeModel where
  entities : List Identity
  lookup : List (Nat × Identity)
  deriving Repr, DecidableEq

/-- `Node.addEntity`: init the component, append it to `entities`, and
assign `lookup[key] = component` (overwriting silently). -/
def addEntity (n : NodeModel) (nodeName name ctype : String) :
    Except String NodeModel :=
  match componentInit nodeName name ctype with
  | .error e => .error e
  | .ok ident =>
    .ok { entities := n.entities ++ [ident]
          lookup := (ident.key, ident) ::
            n.lookup.filter (fun p => ¬ p.1 = ident.key) }

/-- The construction loop of `New`: add each configured entity in order,
stopping at the first error. -/
def buildNodeFrom (nodeName : String) (n : NodeModel) :
    List (String × String) → Except String NodeModel
  | [] => .ok n
  | cfg :: rest =>
    match addEntity n nodeName cfg.1 cfg.2 with
    | .error e => .error e
    | .ok n' => buildNodeFrom nodeName n' rest

/-- Node construction starting from an empty registry. -/
def buildNode (nodeName : String) (cfgs : List (String × String)) :
    Except String NodeModel :=
  buildNodeFrom nodeName ⟨[], []⟩ cfgs

/-- Go map read: the value bound to `k`, if any. -/
def lookupFind (m : List (Nat × Identity)) (k : Nat) : Option Identity :=
  (m.find? (fun p => p.1 = k)).map (·.2)

/-! ## Connection dispatch (`conn.handleRPC` / `conn.handleConnection`) -/

/-- Server-to-client frames emitted synchronously by the handlers.  Fields
not read by any claim (device info contents, the epoch in the time reply)
are left off the constructors. -/
inductive Reply
  | helloResponse (apiMajor apiMinor : Nat) (serverInfo : String)
  | connectResponse (invalidPassword : Bool)
  | disconnectResponse
  | pingResponse
  | deviceInfoResponse
  | getTimeResponse
  | describe (ident : Identity)
  | listEntitiesDoneResponse
  deriving Repr, DecidableEq

/-- The decoded fields of an incoming message that the modelled handlers
read: the `ConnectRequest` password and the command key. -/
structure InMsg where
  password : String := ""
  key : Nat := 0
  deriving Repr, DecidableEq

/-- What one `handleRPC` call does to the connection, beyond its replies. -/
inductive RpcOutcome
  | ok
  /-- The handler returned a non-nil error: `handleConnection` logs it and
  returns, closing the connection. -/
  | error (e : String)
  /-- The handler returned `io.EOF` (the `Disconnect` handler does): the
  connection is torn down silently. -/
  | eof
  /-- An unrecovered runtime panic: the whole process dies, not just the
  connection. -/
  | panics (msg : String)
  deriving Repr, DecidableEq

/-- The node state a connection reads: the configured API password, the
entity list, the key lookup, and the per-kind command methods of the
concrete entities (abstracted as a function of message id and key; no claim
depends on their behaviour). -/
structure NodeEnv where
  password : String
  entities : List Identity
  lookup : List (Nat × Identity)
  command : Nat → Identity → RpcOutcome

/-- `conn.handleRPC`: `requests[id]` is nil for an id absent from the table,
and `reflect.New(nil)` panics before the dispatch switch runs.  For ids in
the table, the switch calls the per-id handler; the three SOURCE_BOTH ids
without a case (6, 8, 37) hit the default branch and error out. -/
def handleRPC (env : NodeEnv) (id : Nat) (m : InMsg) :
    List Reply × RpcOutcome :=
  if ¬ id ∈ requestIds then ([], .panics "reflect: New(nil)")
  else
    let cmd : List Reply × RpcOutcome :=
      match lookupFind env.lookup m.key with
      | none => ([], .error "unknown item")
      | some e => ([], env.command id e)
    match id with
    | 1 => ([.helloResponse 1 3 "periphhome"], .ok)
    | 3 =>
      let invalid : Bool := ¬ env.password = m.password
      ([.connectResponse invalid],
        if invalid then .error "invalid password" else .ok)
    | 5 => ([.disconnectResponse], .eof)
    | 7 => ([.pingResponse], .ok)
    | 9 => ([.deviceInfoResponse], .ok)
    | 11 => (env.entities.map .describe ++ [.listEntitiesDoneResponse], .ok)
    | 20 => ([], .ok)
    | 28 => ([], .error "SubscribeLogs: not implemented")
    | 30 => cmd
    | 31 => cmd
    | 32 => cmd
    | 33 => cmd
    | 34 => ([], .ok)
    | 36 => ([.getTimeResponse], .ok)
    | 38 => ([], .ok)
    | 40 => ([], .ok)
    | 42 => ([], .error "ExecuteService: not implemented")
    | 45 => ([], .ok)
    | 48 => cmd
    | n => ([], .error ("internal error: implement " ++ toString n))

/-- How the read loop of `handleConnection` ends on a given input. -/
inductive ConnEnd
  /-- Input exhausted with every handler returning nil: still reading. -/
  | stillOpen
  /-- A handler returned an error: logged, connection closed. -/
  | closedErr (e : String)
  /-- A handler returned `io.EOF`: connection closed silently. -/
  | closedEof
  /-- A handler panicked: the process terminates. -/
  | panicked (msg : String)
  deriving Repr, DecidableEq

/-- The dispatch loop of `handleConnection` over a list of already-framed
incoming messages: each message goes to `handleRPC`; a non-ok outcome stops
the loop. -/
def handleConn (env : NodeEnv) : List (Nat × InMsg) → List Reply × ConnEnd
  | [] => ([], .stillOpen)
  | (id, m) :: rest =>
    match handleRPC env id m with
    | (rs, .ok) =>
      let (rs', e) := handleConn env rest
      (rs ++ rs', e)
    | (rs, .error e) => (rs, .closedErr e)
    | (rs, .eof) => (rs, .closedEof)
    | (rs, .panics msg) => (rs, .panicked msg)

/-! ## Node teardown (`Node.Close` in the node package) -/

/-- The parts of a (possibly partially constructed) `Node` that `Close`
touches: whether the zeroconf advertiser and the listener exist, the
listener's close result, and each entity's name and close result in
construction order. -/
structure CloseEnv where
  zcPresent : Bool
  lnPresent : Bool
  lnErr : Option String
  entities : List (String × Option String)
  deriving Repr, DecidableEq

/-- The observable teardown actions of `Close`, in the order performed. -/
inductive CloseEvent
  | zcShutdown
  | lnClose
  | entityClose (name : String)
  deriving Repr, DecidableEq

/-- `Node.Close`: shut the advertiser down if present, close the listener if
present (recording its error), then close each entity, iterating
`for i := range n.entities` and keeping the first non-nil error.  Returns
the action sequence and the returned error. -/
def closeNode (n : CloseEnv) : List CloseEvent × Option String :=
  let ev0 := if n.zcPresent then [CloseEvent.zcShutdown] else []
  let (ev1, err1) : List CloseEvent × Option String :=
    if n.lnPresent then ([CloseEvent.lnClose], n.lnErr) else ([], none)
  let (ev2, err2) := n.entities.foldl
    (fun (acc : List CloseEvent × Option String) e =>
      (acc.1 ++ [CloseEvent.entityClose e.1],
        if acc.2 = none then e.2 else acc.2))
    ([], err1)
  (ev0 ++ ev1 ++ ev2, err2)

/-- First non-`none` element of a list of optional errors. -/
def firstErr : List (Option String) → Option String
  | [] => none
  | none :: rest => firstErr rest
  | some e :: _ => some e

/-! ## Subscription fan-out (`componentBase.register` / `onNewState` /
`unregister`).  Each of the three operations holds the entity mutex for its
whole body, so a history of an entity's subscription state is an arbitrary
interleaving of these three atomic operations; queues record the messages
sent to a subscriber's channel in order. -/

/-- The subscription fields of `componentBase`: the next channel key, the
map from channel key to the queue of messages sent on that channel, and the
current-state snapshot. -/
structure SubState (α : Type) where
  nextChKey : Nat
  ch : List (Nat × List α)
  currentMsg : Option α

/-- The state after `init` ran: no subscribers, no current message. -/
def initSub (α : Type) : SubState α := ⟨0, [], none⟩

/-- `componentBase.register`: under the mutex, allocate the next channel
key, add an empty channel, and read the current snapshot.  Returns the key,
the snapshot and the new state. -/
def register (c : SubState α) : Nat × Option α × SubState α :=
  (c.nextChKey, c.currentMsg,
    { nextChKey := c.nextChKey + 1
      ch := c.ch ++ [(c.nextChKey, [])]
      currentMsg := c.currentMsg })

/-- `componentBase.onNewState`: under the mutex, set `currentMsg` and send
the message to every registered channel. -/
def onNewState (m : α) (c : SubState α) : SubState α :=
  { c with currentMsg := some m, ch := c.ch.map fun p => (p.1, p.2 ++ [m]) }

/-- `componentBase.unregister`: under the mutex, delete the channel. -/
def unregister (k : Nat) (c : SubState α) : SubState α :=
  { c with ch := c.ch.filter fun p => ¬ p.1 = k }

/-- One atomic operation on an entity's subscription state. -/
inductive SubOp (α : Type)
  | register
  | onNewState (m : α)
  | unregister (k : Nat)
  deriving DecidableEq

/-- Apply one operation (a `register` step discards the returned key and
snapshot, which some concurrent subscriber holds). -/
def applyOp (c : SubState α) : SubOp α → SubState α
  | .register => (register c).2.2
  | .onNewState m => onNewState m c
  | .unregister k => unregister k c

/-- A history of operations applied in order. -/
def applyOps (c : SubState α) (ops : List (SubOp α)) : SubState α :=
  ops.foldl applyOp c

/-- The messages broadcast by a history, in order. -/
def statesOf (ops : List (SubOp α)) : List α :=
  ops.filterMap fun op => match op with
    | .onNewState m => some m
    | _ => none

/-- The queue of the subscriber with channel key `k`, if registered. -/
def queueOf (c : SubState α) (k : Nat) : Option (List α) :=
  (c.ch.find? fun p => p.1 = k).map (·.2)

/-- Looking a key up after deleting a different key is unchanged. -/
lemma find?_key_filter_ne {β : Type} (j k : Nat) (hjk : ¬ j = k) :
    ∀ l : List (Nat × β),
    (l.filter fun p => ¬ p.1 = j).find? (fun p => p.1 = k) =
      l.find? (fun p => p.1 = k) := by
  intro l
  induction l with
  | nil => rfl
  | cons a l ih =>
    by_cases ha : a.1 = j
    · have hak : ¬ a.1 = k := by rw [ha]; exact hjk
      rw [List.filter_cons_of_neg (by simp [ha]),
        List.find?_cons_of_neg _ (by simp [hak]), ih]
    · rw [List.filter_cons_of_pos (by simp [ha])]
      by_cases hak : a.1 = k
      · rw [List.find?_cons_of_pos _ (by simp [hak]),
          List.find?_cons_of_pos _ (by simp [hak])]
      · rw [List.find?_cons_of_neg _ (by simp [hak]),
          List.find?_cons_of_neg _ (by simp [hak]), ih]

/-- Looking a key up through a value-only map. -/
lemma find?_key_map_snd {β γ : Type} (k : Nat) (f : Nat × β → γ)
    (l : List (Nat × β)) :
    (l.map fun p => (p.1, f p)).find? (fun p => p.1 = k) =
      (l.find? fun p => p.1 = k).map fun p => (p.1, f p) := by
  rw [List.find?_map]
  rfl

/-- Every registered channel key stays below `nextChKey` across any single
operation. -/
lemma applyOp_bounded {α : Type} {c : SubState α}
    (h : ∀ p ∈ c.ch, p.1 < c.nextChKey) (op : SubOp α) :
    ∀ p ∈ (applyOp c op).ch, p.1 < (applyOp c op).nextChKey := by
  cases op with
  | register =>
    intro p hp
    simp only [applyOp, register, List.mem_append, List.mem_singleton] at hp
    simp only [applyOp, register]
    rcases hp with hp | hp
    · exact Nat.lt_succ_of_lt (h p hp)
    · subst hp; exact Nat.lt_succ_self _
  | onNewState m =>
    intro p hp
    simp only [applyOp, onNewState, List.mem_map] at hp
    obtain ⟨q, hq, rfl⟩ := hp
    exact h q hq
  | unregister k =>
    intro p hp
    simp only [applyOp, unregister, List.mem_filter] at hp
    exact h p hp.1

/-- `nextChKey` never decreases. -/
lemma applyOp_nextChKey_mono {α : Type} (c : SubState α) (op : SubOp α) :
    c.nextChKey ≤ (applyOp c op).nextChKey := by
  cases op <;> simp [applyOp, register, onNewState, unregister]

/-- Core fan-out invariant: a registered subscriber's queue accumulates
exactly the messages broadcast while it stays registered, in order. -/
lemma queueOf_applyOps {α : Type} (ops : List (SubOp α)) :
    ∀ (c : SubState α) (k : Nat) (q : List α),
    (∀ p ∈ c.ch, p.1 < c.nextChKey) → k < c.nextChKey →
    queueOf c k = some q →
    (∀ j, SubOp.unregister j ∈ ops → ¬ j = k) →
    queueOf (applyOps c ops) k = some (q ++ statesOf ops) := by
  induction ops with
  | nil =>
    intro c k q _ _ hq _
    simpa [applyOps, statesOf] using hq
  | cons op rest ih =>
    intro c k q hb hk hq hu
    have hstep : applyOps c (op :: rest) = applyOps (applyOp c op) rest := by
      simp [applyOps]
    rw [hstep]
    have hb' := applyOp_bounded hb op
    have hk' : k < (applyOp c op).nextChKey :=
      lt_of_lt_of_le hk (applyOp_nextChKey_mono c op)
    have hu' : ∀ j, SubOp.unregister j ∈ rest → ¬ j = k :=
      fun j hj => hu j (List.mem_cons_of_mem _ hj)
    cases op with
    | register =>
      have hq' : queueOf (applyOp c .register) k = some q := by
        simp only [applyOp, register, queueOf] at hq ⊢
        rw [List.find?_append]
        cases hfind : c.ch.find? fun p => p.1 = k with
        | none => rw [hfind] at hq; simp at hq
        | some v =>
          rw [hfind] at hq
          simpa [Option.or] using hq
      have := ih (applyOp c .register) k q hb' hk' hq' hu'
      simpa [statesOf] using this
    | onNewState m =>
      have hq' : queueOf (applyOp c (.onNewState m)) k = some (q ++ [m]) := by
        simp only [applyOp, onNewState, queueOf] at hq ⊢
        rw [find?_key_map_snd k (fun p => p.2 ++ [m])]
        cases hfind : c.ch.find? fun p => p.1 = k with
        | none => rw [hfind] at hq; simp at hq
        | some v =>
          rw [hfind] at hq
          simp at hq
          simp [hq]
      have := ih (applyOp c (.onNewState m)) k (q ++ [m]) hb' hk' hq' hu'
      rw [this]
      simp [statesOf]
    | unregister j =>
      have hjk : ¬ j = k := hu j (List.mem_cons_self _ _)
      have hq' : queueOf (applyOp c (.unregister j)) k = some q := by
        simp only [applyOp, unregister, queueOf] at hq ⊢
        rw [find?_key_filter_ne j k hjk]
        exact hq
      have := ih (applyOp c (.unregister j)) k q hb' hk' hq' hu'
      rw [this]
      simp [statesOf]

/-- The bound invariant holds of any state reached from `init`. -/
lemma applyOps_bounded {α : Type} (ops : List (SubOp α)) :
    ∀ (c : SubState α), (∀ p ∈ c.ch, p.1 < c.nextChKey) →
    ∀ p ∈ (applyOps c ops).ch, p.1 < (applyOps c ops).nextChKey := by
  induction ops with
  | nil => intro c hc; simpa [applyOps] using hc
  | cons op rest ih =>
    intro c hc
    have hstep : applyOps c (op :: rest) = applyOps (applyOp c op) rest := by
      simp [applyOps]
    rw [hstep]
    exact ih _ (applyOp_bounded hc op)

/-- Closed form of the entity-closing fold inside `Close`. -/
lemma closeNode_foldl (es : List (String × Option String)) :
    ∀ acc : List CloseEvent × Option String,
    es.foldl (fun acc e =>
        (acc.1 ++ [CloseEvent.entityClose e.1],
          if acc.2 = none then e.2 else acc.2)) acc =
      (acc.1 ++ es.map fun e => CloseEvent.entityClose e.1,
        match acc.2 with
        | some e => some e
        | none => firstErr (es.map (·.2))) := by
  induction es with
  | nil =>
    intro acc
    obtain ⟨evs, err⟩ := acc
    cases err <;> simp [firstErr]
  | cons e es ih =>
    intro acc
    obtain ⟨evs, err⟩ := acc
    rw [List.foldl_cons, ih]
    cases err with
    | some e0 => simp
    | none =>
      cases he : e.2 with
      | some err => simp [he, firstErr]
      | none => simp [he, firstErr]

/-- The lookup map binds each key to the most recently added entity with
that key. -/
def lastWins (n : NodeModel) : Prop :=
  ∀ k, lookupFind n.lookup k = n.entities.reverse.find? fun i => i.key = k

/-- `addEntity` preserves the last-wins lookup invariant. -/
lemma addEntity_lastWins {n n' : NodeModel} {nodeName name ctype : String}
    (h : addEntity n nodeName name ctype = .ok n') (hn : lastWins n) :
    lastWins n' := by
  unfold addEntity at h
  cases hinit : componentInit nodeName name ctype with
  | error e => rw [hinit] at h; exact absurd h (by simp)
  | ok ident =>
    rw [hinit] at h
    injection h with h
    subst h
    intro k
    simp only [lookupFind, List.reverse_append, List.reverse_singleton,
      List.singleton_append]
    by_cases hk : ident.key = k
    · rw [List.find?_cons_of_pos _ (by simp [hk]),
        List.find?_cons_of_pos _ (by simp [hk])]
      simp
    · rw [List.find?_cons_of_neg _ (by simp [hk]),
        List.find?_cons_of_neg _ (by simp [hk]),
        find?_key_filter_ne ident.key k hk]
      exact hn k

/-- The construction loop keeps the invariant and adds exactly one entity
per configuration entry. -/
lemma buildNodeFrom_ok (cfgs : List (String × String)) :
    ∀ (n : NodeModel) (nodeName : String) (n' : NodeModel),
    buildNodeFrom nodeName n cfgs = .ok n' → lastWins n →
    lastWins n' ∧ n'.entities.length = n.entities.length + cfgs.length := by
  induction cfgs with
  | nil =>
    intro n nodeName n' h hn
    simp only [buildNodeFrom] at h
    injection h with h
    subst h
    exact ⟨hn, by simp⟩
  | cons cfg rest ih =>
    intro n nodeName n' h hn
    simp only [buildNodeFrom] at h
    cases hadd : addEntity n nodeName cfg.1 cfg.2 with
    | error e => rw [hadd] at h; exact absurd h (by simp)
    | ok n1 =>
      rw [hadd] at h
      obtain ⟨hlw, hlen⟩ := ih n1 nodeName n' h (addEntity_lastWins hadd hn)
      have hlen1 : n1.entities.length = n.entities.length + 1 := by
        unfold addEntity at hadd
        cases hinit : componentInit nodeName cfg.1 cfg.2 with
        | error e => rw [hinit] at hadd; exact absurd hadd (by simp)
        | ok ident =>
          rw [hinit] at hadd
          injection hadd with hadd
          subst hadd
          simp
      refine ⟨hlw, ?_⟩
      rw [hlen, hlen1]
      simp [List.length_cons]
      omega

/-- A minimal concrete node environment: empty password, no entities. -/
def env0 : NodeEnv :=
  { password := "", entities := [], lookup := [], command := fun _ _ => .ok }

/-- The identity both colliding fake sensors derive. -/
def fakeIdent : Identity := ⟨"fake", "pisensorfake", 2562717242⟩

/-- The node that construction builds from two colliding configurations. -/
def collisionNode : NodeModel :=
  ⟨[fakeIdent, fakeIdent], [(2562717242, fakeIdent)]⟩

/-! ## Claims -/

/-- C1 (counterexample): the key of `"fakebinary_sensor"` computed by
`componentBase.init` is 2604849794 = 0x9B42DA82, the 32-bit FNV-1 hash; it is
not the FNV-1a hash (1622603580) and not the spec's hex reference vector
0x9B4E1342, so the key is not "the 32-bit FNV-1a hash of object_id". -/
theorem key_not_fnv1a_counterexample :
    componentInit "pi" "fake binary_sensor" "binary_sensor" =
      .ok ⟨"fakebinary_sensor", "pibinary_sensorfakebinary_sensor",
        2604849794⟩ ∧
    fnv1a32 (strBytes "fakebinary_sensor") = 1622603580 ∧
    ¬ (2604849794 : Nat) = 1622603580 ∧
    ¬ (2604849794 : Nat) = 0x9B4E1342 :=
  ⟨rfl, rfl, by decide, by decide⟩

/-- C1 (amended): for every entity the identity key equals the 32-bit FNV-1
(not FNV-1a) hash of its `object_id`, with a hash of 0 replaced by 1; the
key of `"fakebinary_sensor"` is 2604849794 = 0x9B42DA82. -/
theorem key_is_fnv1_of_objectID :
    (∀ (nodeName name ctype : String) (ident : Identity),
      componentInit nodeName name ctype = .ok ident →
      ident.key = (if fnv32 (strBytes ident.objectID) = 0 then 1
        else fnv32 (strBytes ident.objectID))) ∧
    componentInit "pi" "fake binary_sensor" "binary_sensor" =
      .ok ⟨"fakebinary_sensor", "pibinary_sensorfakebinary_sensor",
        2604849794⟩ ∧
    fnv32 (strBytes "fakebinary_sensor") = 2604849794 := by
  refine ⟨?_, rfl, rfl⟩
  intro nodeName name ctype ident h
  unfold componentInit at h
  split_ifs at h with h1 h2 h3 h4
  · cases h; simp [h4]
  · cases h; simp [h4]

/-- C1 (witness): the general key law applied to the binary-sensor vector. -/
theorem key_is_fnv1_of_objectID_witness :
    (⟨"fakebinary_sensor", "pibinary_sensorfakebinary_sensor",
      2604849794⟩ : Identity).key =
      (if fnv32 (strBytes (⟨"fakebinary_sensor",
          "pibinary_sensorfakebinary_sensor", 2604849794⟩ : Identity).objectID)
          = 0 then 1
        else fnv32 (strBytes (⟨"fakebinary_sensor",
          "pibinary_sensorfakebinary_sensor",
          2604849794⟩ : Identity).objectID)) :=
  key_is_fnv1_of_objectID.1 "pi" "fake binary_sensor" "binary_sensor" _ rfl

/-- C2: a frame whose id is not in the `requests` table (id 2, HelloResponse,
is server-to-client and absent) does not close the connection with an
unsupported-message error: `requests[id]` is nil, `reflect.New(nil)` panics,
and the unrecovered panic kills the whole process. -/
theorem unknown_id_crashes_process :
    ¬ (2 : Nat) ∈ requestIds ∧
    handleConn env0 [(2, {})] = ([], .panicked "reflect: New(nil)") :=
  ⟨by decide, rfl⟩

/-- C3: on a fresh connection a HelloRequest is answered with
`HelloResponse{1, 3, "periphhome"}`; a ConnectRequest with the configured
password gets `ConnectResponse{invalid_password=false}` and the connection
stays open, any other password gets `ConnectResponse{invalid_password=true}`
and the connection closes right after the reply. -/
theorem hello_connect_handshake (env : NodeEnv) (attempt : String) :
    handleConn env [(1, {}), (3, { password := attempt })] =
      if env.password = attempt then
        ([.helloResponse 1 3 "periphhome", .connectResponse false],
          .stillOpen)
      else
        ([.helloResponse 1 3 "periphhome", .connectResponse true],
          .closedErr "invalid password") := by
  by_cases h : env.password = attempt
  · rw [if_pos h]
    subst h
    simp [handleConn, handleRPC, show (1 : Nat) ∈ requestIds by decide,
      show (3 : Nat) ∈ requestIds by decide]
  · rw [if_neg h]
    simp [handleConn, handleRPC, h, show (1 : Nat) ∈ requestIds by decide,
      show (3 : Nat) ∈ requestIds by decide]

/-- C4: for every known message id and payload of at most 1 MiB, decoding
the frame written by `writeMsg` yields the same id and payload (and consumes
exactly the frame). -/
theorem framing_roundtrip (id : Nat) (payload rest : List Nat)
    (hid : id ∈ knownIds) (hlen : payload.length ≤ 1024 * 1024) :
    readMsg (writeMsg id payload ++ rest) = some (id, payload, rest) :=
  readMsg_writeMsg rest (knownIds_lt hid) hlen

/-- C4 (witness): the round-trip at id 1 with payload `[5, 250]`. -/
theorem framing_roundtrip_witness :
    (1 : Nat) ∈ knownIds ∧ ([5, 250] : List Nat).length ≤ 1024 * 1024 ∧
    readMsg (writeMsg 1 [5, 250] ++ [9]) = some (1, [5, 250], [9]) :=
  ⟨by decide, by decide, framing_roundtrip 1 [5, 250] [9] (by decide)
    (by decide)⟩

/-- C5: registering a subscriber returns the entity's current snapshot, and
the subscriber's queue after any further operations that do not unregister
it holds exactly the states broadcast after registration, in order — none
from before registration, each exactly once. -/
theorem subscriber_snapshot_then_stream {α : Type}
    (ops1 ops2 : List (SubOp α)) (k : Nat) (snap : Option α)
    (st2 : SubState α)
    (hreg : register (applyOps (initSub α) ops1) = (k, snap, st2))
    (hops2 : ∀ j, SubOp.unregister j ∈ ops2 → ¬ j = k) :
    snap = (applyOps (initSub α) ops1).currentMsg ∧
    queueOf (applyOps st2 ops2) k = some (statesOf ops2) := by
  have hb : ∀ p ∈ (applyOps (initSub α) ops1).ch,
      p.1 < (applyOps (initSub α) ops1).nextChKey :=
    applyOps_bounded ops1 (initSub α) (by simp [initSub])
  unfold register at hreg
  injection hreg with h1 h23
  injection h23 with h2 h3
  refine ⟨h2.symm, ?_⟩
  subst h1
  rw [← h3]
  refine queueOf_applyOps ops2 _ _ [] (applyOp_bounded hb .register)
    (by simp [applyOp, register]) ?_ hops2 |>.trans (by simp)
  simp only [queueOf, applyOp, register]
  rw [List.find?_append]
  have hnone : (applyOps (initSub α) ops1).ch.find?
      (fun p => p.1 = (applyOps (initSub α) ops1).nextChKey) = none := by
    rw [List.find?_eq_none]
    intro p hp
    simp only [decide_eq_true_eq]
    exact Nat.ne_of_lt (hb p hp)
  rw [hnone]
  simp

/-- C5 (witness): one broadcast before registration, snapshot observed, two
broadcasts and an unrelated registration after. -/
theorem subscriber_snapshot_then_stream_witness :
    some 1 = (applyOps (initSub Nat) [SubOp.onNewState 1]).currentMsg ∧
    queueOf (applyOps (⟨1, [(0, [])], some 1⟩ : SubState Nat)
        [SubOp.register, SubOp.onNewState 2, SubOp.onNewState 3]) 0 =
      some (statesOf
        [SubOp.register, SubOp.onNewState 2, SubOp.onNewState 3]) :=
  subscriber_snapshot_then_stream [SubOp.onNewState 1]
    [SubOp.register, SubOp.onNewState 2, SubOp.onNewState 3] 0 (some 1)
    ⟨1, [(0, [])], some 1⟩ rfl (by intro j hj; simp at hj)

/-- C6 (counterexample): closing a node with entities `a` then `b` (both
failing to close) closes them in construction order `a, b` — not reverse —
and returns `a`'s error, not `b`'s. -/
theorem close_order_counterexample :
    closeNode ⟨true, true, none, [("a", some "ea"), ("b", some "eb")]⟩ =
      ([.zcShutdown, .lnClose, .entityClose "a", .entityClose "b"],
        some "ea") ∧
    ¬ (closeNode ⟨true, true, none,
        [("a", some "ea"), ("b", some "eb")]⟩).1 =
      [.zcShutdown, .lnClose, .entityClose "b", .entityClose "a"] ∧
    ¬ (closeNode ⟨true, true, none,
        [("a", some "ea"), ("b", some "eb")]⟩).2 = some "eb" :=
  ⟨rfl, by decide, by decide⟩

/-- C6 (amended): `Close` tears down the mDNS advertiser first, then the
listener, then the entities in forward construction order, and returns the
first non-nil close error in that forward order. -/
theorem close_forward_order (n : CloseEnv) :
    closeNode n =
      ((if n.zcPresent then [CloseEvent.zcShutdown] else []) ++
        (if n.lnPresent then [CloseEvent.lnClose] else []) ++
        (n.entities.map fun e => CloseEvent.entityClose e.1),
      firstErr ((if n.lnPresent then n.lnErr else none) ::
        n.entities.map (·.2))) := by
  unfold closeNode
  by_cases hln : n.lnPresent
  · simp only [hln, if_true]
    rw [closeNode_foldl]
    cases he : n.lnErr with
    | some e => simp [firstErr]
    | none => simp [firstErr]
  · simp only [hln, if_false]
    rw [closeNode_foldl]
    simp [firstErr]

/-- C7 (counterexample): `SubscribeLogs` is not a no-op acknowledge: its
handler returns a not-implemented error, no reply frame is sent, and the
connection closes — a later Ping is never processed. -/
theorem subscribeLogs_error_counterexample :
    handleConn env0 [(28, {}), (7, {})] =
      ([], .closedErr "SubscribeLogs: not implemented") := rfl

/-- C7 (amended): `SubscribeHomeassistantServices`,
`SubscribeHomeAssistantStates` and `HomeAssistantStateResponse` are no-op
acknowledges (success, no reply, connection stays open), but `SubscribeLogs`
fails with a not-implemented error that closes the connection. -/
theorem noop_acknowledge_handlers (env : NodeEnv) (m : InMsg) :
    handleRPC env 34 m = ([], .ok) ∧
    handleRPC env 38 m = ([], .ok) ∧
    handleRPC env 40 m = ([], .ok) ∧
    handleRPC env 28 m = ([], .error "SubscribeLogs: not implemented") :=
  ⟨rfl, rfl, rfl, rfl⟩

/-- C8 (counterexample): a PingRequest received as the very first message —
before any HelloRequest — is dispatched to its handler and answered with a
PingResponse, so the connection does not restrict the initial state to
HelloRequest. -/
theorem ping_before_hello_counterexample :
    handleConn env0 [(7, {})] = ([Reply.pingResponse], .stillOpen) := rfl

/-- C8 (amended): the connection keeps no handshake state; dispatch depends
only on the message id, so Ping and DeviceInfo at the head of any input —
Hello or not — are handled identically. -/
theorem dispatch_ignores_handshake_state (env : NodeEnv) (m : InMsg)
    (rest : List (Nat × InMsg)) :
    handleConn env ((7, m) :: rest) =
      (Reply.pingResponse :: (handleConn env rest).1,
        (handleConn env rest).2) ∧
    handleConn env ((9, m) :: rest) =
      (Reply.deviceInfoResponse :: (handleConn env rest).1,
        (handleConn env rest).2) := by
  constructor <;>
  · rcases h : handleConn env rest with ⟨rs, e⟩
    simp [handleConn, handleRPC, h, show (7 : Nat) ∈ requestIds by decide,
      show (9 : Nat) ∈ requestIds by decide]

/-- C9 (counterexample): adding a second entity whose name derives the same
object id and key as an existing one does not fail construction: both
entities are kept (with equal key 2562717242) and the lookup silently holds
only the newer one. -/
theorem key_collision_counterexample :
    buildNode "pi" [("fake", "sensor"), ("Fake", "sensor")] =
      .ok collisionNode ∧
    collisionNode.entities.length = 2 ∧
    collisionNode.lookup.length = 1 :=
  ⟨rfl, rfl, rfl⟩

/-- C9 (amended): construction never checks key uniqueness: a successful
build has one entity per configuration entry, and the lookup maps each key
to the most recently added entity with that key. -/
theorem construction_lookup_last_wins (nodeName : String)
    (cfgs : List (String × String)) (n : NodeModel)
    (h : buildNode nodeName cfgs = .ok n) :
    n.entities.length = cfgs.length ∧
    ∀ k, lookupFind n.lookup k = n.entities.reverse.find? fun i => i.key = k := by
  obtain ⟨hlw, hlen⟩ := buildNodeFrom_ok cfgs ⟨[], []⟩ nodeName n h
    (fun k => rfl)
  exact ⟨by simpa using hlen, hlw⟩

/-- C9 (witness): the last-wins law at the colliding construction. -/
theorem construction_lookup_last_wins_witness :
    collisionNode.entities.length = 2 ∧
    lookupFind collisionNode.lookup 2562717242 =
      collisionNode.entities.reverse.find? fun i => i.key = 2562717242 :=
  ⟨(construction_lookup_last_wins "pi" [("fake", "sensor"), ("Fake", "sensor")]
      collisionNode rfl).1,
    (construction_lookup_last_wins "pi" [("fake", "sensor"), ("Fake", "sensor")]
      collisionNode rfl).2 2562717242⟩

/-- C10: `readVarUint` decodes the canonical encoding of every `uint64`
value (which is at most 10 bytes), and rejects any input whose first ten
bytes all carry the continuation bit — which covers every varint longer
than 10 bytes and every 10-byte prefix whose 10th byte has the bit set. -/
theorem readVarUint_bounds :
    (∀ (v : Nat) (rest : List Nat), v < 2 ^ 64 →
      readVarUint (putUvarint v ++ rest) = some (v, rest) ∧
      (putUvarint v).length ≤ 10) ∧
    (∀ (pre l : List Nat), pre.length = 10 → (∀ b ∈ pre, 0x80 ≤ b) →
      readVarUint (pre ++ l) = none) := by
  constructor
  · intro v rest hv
    exact ⟨readVarUint_putUvarint hv rest, putUvarint_length_le hv⟩
  · intro pre l hlen hcont
    exact readVarUintAux_none_of_cont pre l 0 0 0 hcont (by omega)

/-- C10 (witness): the 10-byte varint of `2 ^ 64 - 1` decodes to its value,
and ten continuation bytes followed by a terminator are rejected. -/
theorem readVarUint_bounds_witness :
    ((2 ^ 64 - 1 : Nat) < 2 ^ 64 ∧
      readVarUint (putUvarint (2 ^ 64 - 1) ++ []) = some (2 ^ 64 - 1, []) ∧
      (putUvarint (2 ^ 64 - 1)).length ≤ 10) ∧
    (List.replicate 10 0x80).length = 10 ∧
    readVarUint (List.replicate 10 0x80 ++ [1]) = none :=
  ⟨⟨by decide, (readVarUint_bounds.1 _ [] (by decide)).1,
      (readVarUint_bounds.1 _ [] (by decide)).2⟩,
    by decide,
    readVarUint_bounds.2 _ [1] (by decide) (by decide)⟩

end PeriphHome
